import Mathlib

/-
Verification of the structlog core typing contract (src/structlog/typing.py)
against its specification: context store, level-filtered bound logger,
event-record construction, and the processor-chain contract.

The file under src/ declares only the protocols (method signatures and the
type aliases `Context`, `EventDict`, `ProcessorReturnValue`, `Processor`);
the behaviour of the level methods and the context operations is modelled
from the specification where noted.
-/

namespace Structlog

/-- Values carried in a context or event dict.  Python allows arbitrary
values; a small closed universe (strings, integers, a none sentinel)
suffices for the observable behaviour verified here. -/
inductive Value where
  | vstr (s : String)
  | vint (n : Int)
  | vnone
deriving DecidableEq, Repr

/-- Rendering of a value by printf-style string substitution, mirroring
Python str() on the values of our universe. -/
def renderValue : Value → String
  | .vstr s => s
  | .vint n => toString n
  | .vnone => "None"

/-- Context (typing.py line 53): a dict-like carrier of string keys to
arbitrary values.  Modelled as an insertion-ordered association list with
unique keys, matching Python dict observably (lookup, insertion order). -/
abbrev Ctx := List (String × Value)

/-- Lookup of a key, first occurrence wins (Python dict lookup). -/
def Ctx.get : Ctx → String → Option Value
  | [], _ => none
  | (k, v) :: rest, key => if k = key then some v else Ctx.get rest key

/-- Key-membership test (Python `key in d`). -/
def Ctx.hasKey (c : Ctx) (k : String) : Bool :=
  (c.get k).isSome

/-- Update of a single key, Python-dict style: an existing key keeps its
position and gets the new value; an absent key is appended at the end. -/
def Ctx.set : Ctx → String → Value → Ctx
  | [], key, val => [(key, val)]
  | (k, v) :: rest, key, val =>
      if k = key then (k, val) :: rest else (k, v) :: Ctx.set rest key val

/-- Removal of every entry for a key (Python `del d[k]` on unique keys). -/
def Ctx.removeKey : Ctx → String → Ctx
  | [], _ => []
  | (k, v) :: rest, key =>
      if k = key then Ctx.removeKey rest key else (k, v) :: Ctx.removeKey rest key

/-- Modelled from the spec: `bind(newValues) -> Context` returns a new
Context equal to the receiver with the new values merged in,
last-write-wins on key collision (the implementation of the context store
is not under src/, only the `BindableLogger` protocol is). -/
def Ctx.bindPairs (c : Ctx) (nv : List (String × Value)) : Ctx :=
  nv.foldl (fun acc kv => Ctx.set acc kv.1 kv.2) c

/-- Error taxonomy of the context store (spec section 7). -/
inductive CtxError where
  | keyNotFound (k : String)
deriving DecidableEq, Repr

/-- Modelled from the spec: strict `unbind(keys) -> Context` returns a new
Context with each listed key removed and fails with `KeyNotFound` if any
key is absent from the receiver. -/
def Ctx.unbind (c : Ctx) (ks : List String) : Except CtxError Ctx :=
  match ks.find? (fun k => !(c.hasKey k)) with
  | some k => .error (.keyNotFound k)
  | none => .ok (ks.foldl Ctx.removeKey c)

/-- Modelled from the spec: `tryUnbind(keys) -> Context` removes the listed
keys, silently ignoring absent ones; never fails. -/
def Ctx.tryUnbind (c : Ctx) (ks : List String) : Ctx :=
  ks.foldl Ctx.removeKey c

/-- Modelled from the spec: `new(initialValues) -> Context` returns a
Context containing only the initial values (clear then bind). -/
def Ctx.mkNew (nv : List (String × Value)) : Ctx :=
  Ctx.bindPairs [] nv

/-- Value of the last occurrence of a key in a list of pairs; describes
which value last-write-wins merging keeps. -/
def lastValue : List (String × Value) → String → Option Value
  | [], _ => none
  | p :: rest, k =>
      match lastValue rest k with
      | some v => some v
      | none => if p.1 = k then some p.2 else none

/-- A store of context snapshots: cell index is a reference, allocation
appends.  Used to express that the context operations never mutate the
receiver in place (spec section 4.1: copy-on-derive). -/
structure Store where
  cells : List Ctx
deriving DecidableEq, Repr

/-- Allocation of a fresh snapshot; returns the new store and the
reference of the cell. -/
def Store.alloc (s : Store) (c : Ctx) : Store × Nat :=
  ({ cells := s.cells ++ [c] }, s.cells.length)

/-- Read of a snapshot reference. -/
def Store.read (s : Store) (r : Nat) : Option Ctx :=
  s.cells.get? r

/-- Modelled from the spec: the bind operation on the store allocates a new
snapshot for the merged context and leaves every existing cell alone. -/
def Store.bindOp (s : Store) (r : Nat) (nv : List (String × Value)) : Store × Nat :=
  match s.read r with
  | some c => s.alloc (c.bindPairs nv)
  | none => (s, r)

/-- Modelled from the spec: strict unbind on the store; on failure no
allocation happens and no cell changes. -/
def Store.unbindOp (s : Store) (r : Nat) (ks : List String) : Store × Option Nat :=
  match s.read r with
  | some c =>
      match c.unbind ks with
      | .ok c2 => ((s.alloc c2).fst, some (s.alloc c2).snd)
      | .error _ => (s, none)
  | none => (s, none)

/-- Modelled from the spec: tryUnbind on the store allocates a new
snapshot and leaves every existing cell alone. -/
def Store.tryUnbindOp (s : Store) (r : Nat) (ks : List String) : Store × Nat :=
  match s.read r with
  | some c => s.alloc (c.tryUnbind ks)
  | none => (s, r)

/-- Modelled from the spec: new on the store allocates a snapshot holding
only the initial values and leaves every existing cell alone. -/
def Store.newOp (s : Store) (r : Nat) (nv : List (String × Value)) : Store × Nat :=
  match s.read r with
  | some _ => s.alloc (Ctx.mkNew nv)
  | none => (s, r)

/-- Severity levels (spec section 3): an ordered integer scale over the
closed set debug, info, warning, error, critical, on the standard scale
where a higher number is more severe and a lower threshold enables more
output (typing.py takes levels as `int`). -/
def DEBUG : Nat := 10

/-- Severity level info. -/
def INFO : Nat := 20

/-- Severity level warning. -/
def WARNING : Nat := 30

/-- Severity level error. -/
def ERROR : Nat := 40

/-- Severity level critical. -/
def CRITICAL : Nat := 50

/-- Modelled from the spec: symbolic name of a severity level, attached to
the EventRecord (the level-to-name table is not under src/). -/
def levelToName (l : Nat) : String :=
  if l = 10 then "debug"
  else if l = 20 then "info"
  else if l = 30 then "warning"
  else if l = 40 then "error"
  else if l = 50 then "critical"
  else "notset"

/-- Failure taxonomy of a log call (spec section 7): the only locally
raised failure is a formatting failure during interpolation. -/
inductive LogError where
  | formatMismatch
deriving DecidableEq, Repr

/-- EventDict (typing.py line 61): the event dictionary passed into
processors, created by copying the configured Context. -/
abbrev EventDict := List (String × Value)

/-- Modelled from the spec: printf-style percent-substitution over the
character list of the template.  Supports the conversions used by the
spec (`%s` renders any value, `%d` requires an integer, `%%` is a literal
percent); an unknown conversion, a missing argument or a leftover
argument is a format mismatch. -/
def interpolateChars : List Char → List Value → Except LogError (List Char)
  | [], [] => .ok []
  | [], _ :: _ => .error .formatMismatch
  | ['%'], _ => .error .formatMismatch
  | '%' :: c :: rest, args =>
      if c = '%' then
        (interpolateChars rest args).map (fun t => '%' :: t)
      else if c = 's' then
        match args with
        | [] => .error .formatMismatch
        | a :: more => (interpolateChars rest more).map (fun t => (renderValue a).toList ++ t)
      else if c = 'd' then
        match args with
        | [] => .error .formatMismatch
        | .vint n :: more =>
            (interpolateChars rest more).map (fun t => (toString n).toList ++ t)
        | _ :: _ => .error .formatMismatch
      else .error .formatMismatch
  | ch :: rest, args => (interpolateChars rest args).map (fun t => ch :: t)

/-- Modelled from the spec: interpolation of positional arguments into the
message template (`event % args`). -/
def interpolate (fmt : String) (args : List Value) : Except LogError String :=
  (interpolateChars fmt.toList args).map fun cs => String.mk cs

/-- Modelled from the spec: step 3 of the gate decision — interpolation is
attempted only when positional arguments were supplied; otherwise the
message is used verbatim. -/
def interpMsg (event : String) (args : List Value) : Except LogError String :=
  if args.isEmpty then .ok event else interpolate event args

/-- Modelled from the spec: step 4 of the gate decision — the EventRecord
is a copy of the current Context, plus the message under the reserved
`event` key, plus all keyword arguments merged in (keyword arguments win
over context on key collision), plus the symbolic level. -/
def buildRecord (c : Ctx) (msg : String) (kw : List (String × Value)) (level : Nat) : EventDict :=
  Ctx.set (Ctx.bindPairs (Ctx.set c "event" (.vstr msg)) kw) "level" (.vstr (levelToName level))

/-- Observable work counters of one log call: how many times the context
was copied into an EventRecord, and how many times the processor chain
was invoked. -/
structure CallStats where
  contextCopies : Nat
  processorInvocations : Nat
deriving DecidableEq, Repr

/-- Outcome of a log call: the no-op sentinel of a disabled level, or an
emitted EventRecord handed to the processor chain. -/
inductive LogOutcome where
  | noop
  | emitted (rec : EventDict)
deriving DecidableEq, Repr

/-- FilteringBoundLogger state (spec section 4.3): an immutable minimum
severity threshold and an immutable Context. -/
structure FilteringBoundLogger where
  minLevel : Nat
  context : Ctx
deriving DecidableEq, Repr

/-- Modelled from the spec: the gate decision applied identically by every
severity method (typing.py declares `log(level, event, *args, **kw)` at
line 321 without a body).  A call below the threshold short-circuits with
the no-op sentinel at zero cost; an enabled call interpolates, builds the
EventRecord and hands it to the processor chain; a failed interpolation
aborts the call before any processor runs. -/
def FilteringBoundLogger.logTraced (lg : FilteringBoundLogger) (level : Nat)
    (event : String) (args : List Value) (kw : List (String × Value)) :
    Except LogError LogOutcome × CallStats :=
  if level < lg.minLevel then
    (.ok .noop, ⟨0, 0⟩)
  else
    match interpMsg event args with
    | .error e => (.error e, ⟨0, 0⟩)
    | .ok msg => (.ok (.emitted (buildRecord lg.context msg kw level)), ⟨1, 1⟩)

/-- Result of a log call without the work counters. -/
def FilteringBoundLogger.log (lg : FilteringBoundLogger) (level : Nat)
    (event : String) (args : List Value) (kw : List (String × Value)) :
    Except LogError LogOutcome :=
  (lg.logTraced level event args kw).fst

/-- Suspending form of `log`; per the spec it performs the same gate check
and dispatch logic with identical semantics and return shape. -/
def FilteringBoundLogger.alog (lg : FilteringBoundLogger) (level : Nat)
    (event : String) (args : List Value) (kw : List (String × Value)) :
    Except LogError LogOutcome :=
  lg.log level event args kw

/-- Level method debug (typing.py line 208). -/
def FilteringBoundLogger.debug (lg : FilteringBoundLogger) (event : String)
    (args : List Value) (kw : List (String × Value)) : Except LogError LogOutcome :=
  lg.log DEBUG event args kw

/-- Level method info (typing.py line 220). -/
def FilteringBoundLogger.info (lg : FilteringBoundLogger) (event : String)
    (args : List Value) (kw : List (String × Value)) : Except LogError LogOutcome :=
  lg.log INFO event args kw

/-- Level method warning (typing.py line 232). -/
def FilteringBoundLogger.warning (lg : FilteringBoundLogger) (event : String)
    (args : List Value) (kw : List (String × Value)) : Except LogError LogOutcome :=
  lg.log WARNING event args kw

/-- Alias method warn (typing.py line 244): logs at the warn level, the
same level as `warning`. -/
def FilteringBoundLogger.warn (lg : FilteringBoundLogger) (event : String)
    (args : List Value) (kw : List (String × Value)) : Except LogError LogOutcome :=
  lg.log WARNING event args kw

/-- Level method error (typing.py line 256). -/
def FilteringBoundLogger.error (lg : FilteringBoundLogger) (event : String)
    (args : List Value) (kw : List (String × Value)) : Except LogError LogOutcome :=
  lg.log ERROR event args kw

/-- Alias method err (typing.py line 268): logs at the error level. -/
def FilteringBoundLogger.err (lg : FilteringBoundLogger) (event : String)
    (args : List Value) (kw : List (String × Value)) : Except LogError LogOutcome :=
  lg.log ERROR event args kw

/-- Level method critical (typing.py line 299). -/
def FilteringBoundLogger.critical (lg : FilteringBoundLogger) (event : String)
    (args : List Value) (kw : List (String × Value)) : Except LogError LogOutcome :=
  lg.log CRITICAL event args kw

/-- Alias method fatal (typing.py line 273): logs at the critical level. -/
def FilteringBoundLogger.fatal (lg : FilteringBoundLogger) (event : String)
    (args : List Value) (kw : List (String × Value)) : Except LogError LogOutcome :=
  lg.log CRITICAL event args kw

/-- Alias method msg (typing.py line 311): logs at the info level. -/
def FilteringBoundLogger.msg (lg : FilteringBoundLogger) (event : String)
    (args : List Value) (kw : List (String × Value)) : Except LogError LogOutcome :=
  lg.log INFO event args kw

/-- Traced variants of the alias and canonical pairs, exposing the full
observable result including the EventRecord, for byte-for-byte
comparison. -/
def FilteringBoundLogger.warnTraced (lg : FilteringBoundLogger) (event : String)
    (args : List Value) (kw : List (String × Value)) :
    Except LogError LogOutcome × CallStats :=
  lg.logTraced WARNING event args kw

/-- Traced canonical counterpart of `warn`. -/
def FilteringBoundLogger.warningTraced (lg : FilteringBoundLogger) (event : String)
    (args : List Value) (kw : List (String × Value)) :
    Except LogError LogOutcome × CallStats :=
  lg.logTraced WARNING event args kw

/-- Traced alias fatal. -/
def FilteringBoundLogger.fatalTraced (lg : FilteringBoundLogger) (event : String)
    (args : List Value) (kw : List (String × Value)) :
    Except LogError LogOutcome × CallStats :=
  lg.logTraced CRITICAL event args kw

/-- Traced canonical counterpart of `fatal`. -/
def FilteringBoundLogger.criticalTraced (lg : FilteringBoundLogger) (event : String)
    (args : List Value) (kw : List (String × Value)) :
    Except LogError LogOutcome × CallStats :=
  lg.logTraced CRITICAL event args kw

/-- Traced alias err. -/
def FilteringBoundLogger.errTraced (lg : FilteringBoundLogger) (event : String)
    (args : List Value) (kw : List (String × Value)) :
    Except LogError LogOutcome × CallStats :=
  lg.logTraced ERROR event args kw

/-- Traced canonical counterpart of `err`. -/
def FilteringBoundLogger.errorTraced (lg : FilteringBoundLogger) (event : String)
    (args : List Value) (kw : List (String × Value)) :
    Except LogError LogOutcome × CallStats :=
  lg.logTraced ERROR event args kw

/-- Traced alias msg. -/
def FilteringBoundLogger.msgTraced (lg : FilteringBoundLogger) (event : String)
    (args : List Value) (kw : List (String × Value)) :
    Except LogError LogOutcome × CallStats :=
  lg.logTraced INFO event args kw

/-- Traced canonical counterpart of `msg`. -/
def FilteringBoundLogger.infoTraced (lg : FilteringBoundLogger) (event : String)
    (args : List Value) (kw : List (String × Value)) :
    Except LogError LogOutcome × CallStats :=
  lg.logTraced INFO event args kw

/-- Pure level check (typing.py line 194, spec: the comparison level
greater-or-equal threshold). -/
def FilteringBoundLogger.is_enabled_for (lg : FilteringBoundLogger) (level : Nat) : Bool :=
  lg.minLevel ≤ level

/-- Effective level accessor (typing.py line 201): returns the configured
threshold. -/
def FilteringBoundLogger.get_effective_level (lg : FilteringBoundLogger) : Nat :=
  lg.minLevel

/-- Records emitted by a sequence of call results, in call order; this is
what the processor chain receives. -/
def emittedRecords (rs : List (Except LogError LogOutcome)) : List EventDict :=
  rs.foldr
    (fun r acc =>
      match r with
      | .ok (.emitted rec) => rec :: acc
      | _ => acc)
    []

/-- WrappedLogger (typing.py line 42): the wrapped output target; the
library makes no assumptions about it, so it is opaque here. -/
structure WrappedLogger where
  id : Nat
deriving DecidableEq, Repr

/-- ProcessorReturnValue (typing.py lines 71 to 73): the legal output
shapes of one processor step — a string-keyed mapping, a string, bytes, a
bytearray, or a tuple of arbitrary values. -/
inductive ProcessorReturnValue where
  | mapping (m : EventDict)
  | str (s : String)
  | bytes (b : List UInt8)
  | byteArray (b : List UInt8)
  | tuple (vs : List Value)
deriving DecidableEq, Repr

/-- Processor (typing.py line 78): a callable taking the wrapped logger,
the method name and the current event dict, returning a
ProcessorReturnValue. -/
abbrev Processor := WrappedLogger → String → EventDict → ProcessorReturnValue

/-- Blocking method names of FilteringBoundLogger, in declaration order in
typing.py (lines 208 to 321): the level methods, the aliases and the
generic log. -/
def blockingMethods : List String :=
  ["debug", "info", "warning", "warn", "error", "err", "fatal",
   "exception", "critical", "msg", "log"]

/-- Suspending method names of FilteringBoundLogger, in declaration order
in typing.py (lines 213 to 326). -/
def suspendingMethods : List String :=
  ["adebug", "ainfo", "awarning", "awarn", "aerror", "afatal",
   "aexception", "acritical", "amsg", "alog"]

/-! Supporting lemmas about the context store. -/

theorem Ctx.get_set_same (c : Ctx) (k : String) (v : Value) :
    (Ctx.set c k v).get k = some v := by
  induction c with
  | nil => simp [Ctx.set, Ctx.get]
  | cons p rest ih =>
      obtain ⟨a, b⟩ := p
      by_cases h : a = k
      · simp [Ctx.set, Ctx.get, h]
      · simp [Ctx.set, Ctx.get, h, ih]

theorem Ctx.get_set_other (c : Ctx) (key k : String) (v : Value) (h : k ≠ key) :
    (Ctx.set c key v).get k = c.get k := by
  induction c with
  | nil =>
      simp only [Ctx.set, Ctx.get]
      rw [if_neg (fun hh : key = k => h hh.symm)]
  | cons p rest ih =>
      obtain ⟨a, b⟩ := p
      by_cases ha : a = key
      · subst ha
        simp only [Ctx.set, if_pos rfl, Ctx.get]
        rw [if_neg (fun hh : a = k => h hh.symm), if_neg (fun hh : a = k => h hh.symm)]
      · simp only [Ctx.set, if_neg ha, Ctx.get]
        by_cases hak : a = k
        · rw [if_pos hak, if_pos hak]
        · rw [if_neg hak, if_neg hak]
          exact ih

theorem Ctx.get_bindPairs (nv : List (String × Value)) (k : String) :
    ∀ c : Ctx, (Ctx.bindPairs c nv).get k =
      match lastValue nv k with
      | some v => some v
      | none => c.get k := by
  induction nv with
  | nil => intro c; simp [Ctx.bindPairs, lastValue]
  | cons p rest ih =>
      intro c
      have h1 : Ctx.bindPairs c (p :: rest) = Ctx.bindPairs (Ctx.set c p.1 p.2) rest := rfl
      rw [h1, ih]
      cases hl : lastValue rest k with
      | some v => simp [lastValue, hl]
      | none =>
          by_cases h : p.1 = k
          · subst h
            simp [lastValue, hl, Ctx.get_set_same]
          · simp [lastValue, hl, h, Ctx.get_set_other _ _ _ _ (fun hh => h hh.symm)]

theorem Ctx.get_removeKey_same (c : Ctx) (k : String) :
    (Ctx.removeKey c k).get k = none := by
  induction c with
  | nil => simp [Ctx.removeKey, Ctx.get]
  | cons p rest ih =>
      obtain ⟨a, b⟩ := p
      by_cases h : a = k
      · simp [Ctx.removeKey, h, ih]
      · simp [Ctx.removeKey, Ctx.get, h, ih]

theorem Ctx.get_removeKey_other (c : Ctx) (key k : String) (h : k ≠ key) :
    (Ctx.removeKey c key).get k = c.get k := by
  induction c with
  | nil => simp [Ctx.removeKey]
  | cons p rest ih =>
      obtain ⟨a, b⟩ := p
      by_cases ha : a = key
      · subst ha
        simp only [Ctx.removeKey, if_pos rfl, Ctx.get]
        rw [if_neg (fun hh : a = k => h hh.symm)]
        exact ih
      · simp only [Ctx.removeKey, if_neg ha, Ctx.get]
        by_cases hak : a = k
        · rw [if_pos hak, if_pos hak]
        · rw [if_neg hak, if_neg hak]
          exact ih

theorem Ctx.get_tryUnbind (ks : List String) (k : String) :
    ∀ c : Ctx, (Ctx.tryUnbind c ks).get k = if k ∈ ks then none else c.get k := by
  induction ks with
  | nil => intro c; simp [Ctx.tryUnbind]
  | cons k1 rest ih =>
      intro c
      have h1 : Ctx.tryUnbind c (k1 :: rest) = Ctx.tryUnbind (Ctx.removeKey c k1) rest := rfl
      rw [h1, ih]
      by_cases hm : k ∈ rest
      · simp [hm]
      · by_cases he : k = k1
        · subst he
          simp [hm, Ctx.get_removeKey_same]
        · simp [hm, he, Ctx.get_removeKey_other c k1 k he]

theorem Ctx.unbind_ok_eq (c : Ctx) (ks : List String) (c2 : Ctx)
    (h : Ctx.unbind c ks = .ok c2) : c2 = Ctx.tryUnbind c ks := by
  unfold Ctx.unbind at h
  cases hf : ks.find? (fun k => !(c.hasKey k)) with
  | some k => rw [hf] at h; exact absurd h (by simp)
  | none =>
      rw [hf] at h
      simpa [Ctx.tryUnbind] using (Except.ok.injEq _ _).mp h.symm

/-! Supporting lemmas about the snapshot store. -/

theorem Ctx.get_eq_none_of_not_hasKey (c : Ctx) (k : String)
    (h : (!(Ctx.hasKey c k)) = true) : Ctx.get c k = none := by
  unfold Ctx.hasKey at h
  cases hg : Ctx.get c k with
  | none => rfl
  | some v => rw [hg] at h; simp at h

theorem Store.lt_of_read (s : Store) (r : Nat) (c : Ctx) (h : s.read r = some c) :
    r < s.cells.length := by
  by_contra hc
  push_neg at hc
  rw [Store.read, List.get?_eq_none.mpr hc] at h
  exact Option.noConfusion h

theorem Store.read_alloc_old (s : Store) (c : Ctx) (r : Nat) (h : r < s.cells.length) :
    (s.alloc c).fst.read r = s.read r := by
  simp only [Store.alloc, Store.read]
  exact List.get?_append h

theorem Store.read_alloc_new (s : Store) (c : Ctx) :
    (s.alloc c).fst.read (s.alloc c).snd = some c := by
  simp only [Store.alloc, Store.read]
  exact List.get?_concat_length s.cells c

theorem Store.read_bindOp_old (s : Store) (r r2 : Nat) (nv : List (String × Value))
    (hlt : r2 < s.cells.length) :
    (s.bindOp r nv).fst.read r2 = s.read r2 := by
  cases hr : s.read r with
  | some c0 => simp [Store.bindOp, hr, Store.read_alloc_old _ _ _ hlt]
  | none => simp [Store.bindOp, hr]

theorem Store.read_unbindOp_old (s : Store) (r r2 : Nat) (ks : List String)
    (hlt : r2 < s.cells.length) :
    (s.unbindOp r ks).fst.read r2 = s.read r2 := by
  cases hr : s.read r with
  | some c0 =>
      cases hu : Ctx.unbind c0 ks with
      | ok cu => simp [Store.unbindOp, hr, hu, Store.read_alloc_old _ _ _ hlt]
      | error e => simp [Store.unbindOp, hr, hu]
  | none => simp [Store.unbindOp, hr]

theorem Store.read_tryUnbindOp_old (s : Store) (r r2 : Nat) (ks : List String)
    (hlt : r2 < s.cells.length) :
    (s.tryUnbindOp r ks).fst.read r2 = s.read r2 := by
  cases hr : s.read r with
  | some c0 => simp [Store.tryUnbindOp, hr, Store.read_alloc_old _ _ _ hlt]
  | none => simp [Store.tryUnbindOp, hr]

theorem Store.read_newOp_old (s : Store) (r r2 : Nat) (nv : List (String × Value))
    (hlt : r2 < s.cells.length) :
    (s.newOp r nv).fst.read r2 = s.read r2 := by
  cases hr : s.read r with
  | some c0 => simp [Store.newOp, hr, Store.read_alloc_old _ _ _ hlt]
  | none => simp [Store.newOp, hr]

/-! Claim theorems. -/

/-- C1: for every level-method call (blocking or suspending) with call
severity below the configured minimum threshold, the call short-circuits:
it performs no context copy, builds no EventRecord, invokes no processor,
returns the no-op sentinel, and never fails — even when the positional
arguments would not interpolate. -/
theorem C1_gate_short_circuit (lg : FilteringBoundLogger) (level : Nat)
    (event : String) (args : List Value) (kw : List (String × Value))
    (h : level < lg.minLevel) :
    lg.logTraced level event args kw = (.ok .noop, ⟨0, 0⟩) ∧
    lg.log level event args kw = .ok .noop ∧
    lg.alog level event args kw = .ok .noop ∧
    (∀ e, lg.log level event args kw ≠ .error e) := by
  have h1 : lg.logTraced level event args kw = (.ok .noop, ⟨0, 0⟩) := by
    simp [FilteringBoundLogger.logTraced, h]
  refine ⟨h1, ?_, ?_, ?_⟩ <;>
    simp [FilteringBoundLogger.log, FilteringBoundLogger.alog, h1]

/-- Witness for C1: threshold info, a debug call with a mismatched format
template still returns the no-op sentinel at zero cost. -/
theorem C1_gate_short_circuit_witness :
    DEBUG < (⟨INFO, []⟩ : FilteringBoundLogger).minLevel ∧
    (FilteringBoundLogger.logTraced ⟨INFO, []⟩ DEBUG "%d" [.vstr "x"] [] =
        (.ok .noop, ⟨0, 0⟩) ∧
      FilteringBoundLogger.log ⟨INFO, []⟩ DEBUG "%d" [.vstr "x"] [] = .ok .noop ∧
      FilteringBoundLogger.alog ⟨INFO, []⟩ DEBUG "%d" [.vstr "x"] [] = .ok .noop ∧
      (∀ e, FilteringBoundLogger.log ⟨INFO, []⟩ DEBUG "%d" [.vstr "x"] [] ≠ .error e)) :=
  ⟨by decide, C1_gate_short_circuit ⟨INFO, []⟩ DEBUG "%d" [.vstr "x"] [] (by decide)⟩

/-- C5: is_enabled_for is the pure comparison of the level against the
threshold, hence monotonic in the level — enabled for error implies
enabled for critical and a threshold exists for which the converse fails —
and it is consistent with get_effective_level, which returns the
threshold. -/
theorem C5_level_check_monotone (lg : FilteringBoundLogger) (level l1 l2 : Nat) :
    (lg.is_enabled_for level = true ↔ lg.get_effective_level ≤ level) ∧
    (l1 ≤ l2 → lg.is_enabled_for l1 = true → lg.is_enabled_for l2 = true) ∧
    (lg.is_enabled_for ERROR = true → lg.is_enabled_for CRITICAL = true) ∧
    lg.get_effective_level = lg.minLevel ∧
    (FilteringBoundLogger.is_enabled_for ⟨CRITICAL, []⟩ CRITICAL = true ∧
      FilteringBoundLogger.is_enabled_for ⟨CRITICAL, []⟩ ERROR = false) := by
  refine ⟨?_, ?_, ?_, rfl, by decide⟩
  · simp [FilteringBoundLogger.is_enabled_for, FilteringBoundLogger.get_effective_level]
  · intro hle h1
    simp only [FilteringBoundLogger.is_enabled_for, decide_eq_true_eq] at h1 ⊢
    omega
  · intro h1
    simp only [FilteringBoundLogger.is_enabled_for, decide_eq_true_eq, ERROR, CRITICAL] at h1 ⊢
    omega

/-- Witness for C5 at a concrete logger and concrete levels. -/
theorem C5_level_check_monotone_witness :
    ((FilteringBoundLogger.is_enabled_for ⟨INFO, []⟩ WARNING = true ↔
        FilteringBoundLogger.get_effective_level ⟨INFO, []⟩ ≤ WARNING) ∧
      (INFO ≤ ERROR →
        FilteringBoundLogger.is_enabled_for ⟨INFO, []⟩ INFO = true →
        FilteringBoundLogger.is_enabled_for ⟨INFO, []⟩ ERROR = true) ∧
      (FilteringBoundLogger.is_enabled_for ⟨INFO, []⟩ ERROR = true →
        FilteringBoundLogger.is_enabled_for ⟨INFO, []⟩ CRITICAL = true) ∧
      FilteringBoundLogger.get_effective_level ⟨INFO, []⟩ =
        (⟨INFO, []⟩ : FilteringBoundLogger).minLevel ∧
      (FilteringBoundLogger.is_enabled_for ⟨CRITICAL, []⟩ CRITICAL = true ∧
        FilteringBoundLogger.is_enabled_for ⟨CRITICAL, []⟩ ERROR = false)) :=
  C5_level_check_monotone ⟨INFO, []⟩ WARNING INFO ERROR

/-- C8: each alias method produces a byte-for-byte identical result,
EventRecord included, to its canonical counterpart: warn and warning,
fatal and critical, err and error, msg and info. -/
theorem C8_alias_equivalence (lg : FilteringBoundLogger) (event : String)
    (args : List Value) (kw : List (String × Value)) :
    lg.warnTraced event args kw = lg.warningTraced event args kw ∧
    lg.fatalTraced event args kw = lg.criticalTraced event args kw ∧
    lg.errTraced event args kw = lg.errorTraced event args kw ∧
    lg.msgTraced event args kw = lg.infoTraced event args kw ∧
    lg.warn event args kw = lg.warning event args kw ∧
    lg.fatal event args kw = lg.critical event args kw ∧
    lg.err event args kw = lg.error event args kw ∧
    lg.msg event args kw = lg.info event args kw :=
  ⟨rfl, rfl, rfl, rfl, rfl, rfl, rfl, rfl⟩

/-- C9: a processor is a callable taking the wrapped output target, the
event name identifier and the current event dict, and whatever it returns
is one of exactly five shapes: a string-keyed mapping, text, bytes, a
bytearray, or a tuple of arbitrary values. -/
theorem C9_processor_return_shapes (p : Processor) (w : WrappedLogger)
    (n : String) (d : EventDict) :
    (∃ m, p w n d = .mapping m) ∨ (∃ s, p w n d = .str s) ∨
    (∃ b, p w n d = .bytes b) ∨ (∃ b, p w n d = .byteArray b) ∨
    (∃ vs, p w n d = .tuple vs) := by
  cases hv : p w n d with
  | mapping m => exact Or.inl ⟨m, rfl⟩
  | str s => exact Or.inr (Or.inl ⟨s, rfl⟩)
  | bytes b => exact Or.inr (Or.inr (Or.inl ⟨b, rfl⟩))
  | byteArray b => exact Or.inr (Or.inr (Or.inr (Or.inl ⟨b, rfl⟩)))
  | tuple vs => exact Or.inr (Or.inr (Or.inr (Or.inr ⟨vs, rfl⟩)))

/-- C10: the suspending call surface is exactly the blocking surface with
an `a` prepended, minus `err`: there is no `aerr`, while `amsg` and
`afatal` do exist. -/
theorem C10_async_surface :
    suspendingMethods =
      (blockingMethods.filter (fun m => m ≠ "err")).map (fun m => "a" ++ m) ∧
    "aerr" ∉ suspendingMethods ∧
    "amsg" ∈ suspendingMethods ∧
    "afatal" ∈ suspendingMethods ∧
    "err" ∈ blockingMethods := by
  refine ⟨by decide, by decide, by decide, by decide, by decide⟩

/-- C2: for every enabled log call the EventRecord handed to the processor
chain is the current Context plus the (possibly interpolated) message
under the reserved `event` key, all keyword arguments merged in with
keyword arguments winning over context, and the call level attached; and
with threshold warning and Context service=x, the sequence info "a",
error "b" code=5 delivers exactly one EventRecord, namely service=x,
event=b, code=5, level=error. -/
theorem C2_event_record (lg : FilteringBoundLogger) (level : Nat) (event : String)
    (args : List Value) (kw : List (String × Value)) (msg : String)
    (hen : lg.minLevel ≤ level)
    (hmsg : interpMsg event args = .ok msg)
    (hke : lastValue kw "event" = none) :
    (lg.log level event args kw =
        .ok (.emitted (buildRecord lg.context msg kw level)) ∧
      Ctx.get (buildRecord lg.context msg kw level) "event" = some (.vstr msg) ∧
      Ctx.get (buildRecord lg.context msg kw level) "level" =
        some (.vstr (levelToName level)) ∧
      (∀ k v, k ≠ "level" → lastValue kw k = some v →
        Ctx.get (buildRecord lg.context msg kw level) k = some v) ∧
      (∀ k, k ≠ "event" → k ≠ "level" → lastValue kw k = none →
        Ctx.get (buildRecord lg.context msg kw level) k = Ctx.get lg.context k)) ∧
    emittedRecords
      [FilteringBoundLogger.info ⟨WARNING, [("service", .vstr "x")]⟩ "a" [] [],
       FilteringBoundLogger.error ⟨WARNING, [("service", .vstr "x")]⟩ "b" []
         [("code", .vint 5)]] =
      [[("service", .vstr "x"), ("event", .vstr "b"), ("code", .vint 5),
        ("level", .vstr "error")]] := by
  refine ⟨⟨?_, ?_, ?_, ?_, ?_⟩, by decide⟩
  · simp [FilteringBoundLogger.log, FilteringBoundLogger.logTraced,
      Nat.not_lt.mpr hen, hmsg]
  · simp only [buildRecord]
    rw [Ctx.get_set_other _ _ _ _ (by decide), Ctx.get_bindPairs, hke,
      Ctx.get_set_same]
  · simp only [buildRecord]
    rw [Ctx.get_set_same]
  · intro k v hkne hkv
    simp only [buildRecord]
    rw [Ctx.get_set_other _ _ _ _ hkne, Ctx.get_bindPairs, hkv]
  · intro k hkev hkne hnone
    simp only [buildRecord]
    rw [Ctx.get_set_other _ _ _ _ hkne, Ctx.get_bindPairs, hnone,
      Ctx.get_set_other _ _ _ _ hkev]

/-- Witness for C2: the scenario call itself, with threshold warning,
Context service=x, an error call with message b and keyword code=5. -/
theorem C2_event_record_witness :
    (FilteringBoundLogger.log ⟨WARNING, [("service", .vstr "x")]⟩ ERROR "b" []
        [("code", .vint 5)] =
      .ok (.emitted
        (buildRecord [("service", .vstr "x")] "b" [("code", .vint 5)] ERROR)) ∧
      Ctx.get (buildRecord [("service", .vstr "x")] "b" [("code", .vint 5)] ERROR)
          "event" = some (.vstr "b") ∧
      Ctx.get (buildRecord [("service", .vstr "x")] "b" [("code", .vint 5)] ERROR)
          "level" = some (.vstr (levelToName ERROR)) ∧
      (∀ k v, k ≠ "level" → lastValue [("code", .vint 5)] k = some v →
        Ctx.get (buildRecord [("service", .vstr "x")] "b" [("code", .vint 5)] ERROR)
          k = some v) ∧
      (∀ k, k ≠ "event" → k ≠ "level" → lastValue [("code", .vint 5)] k = none →
        Ctx.get (buildRecord [("service", .vstr "x")] "b" [("code", .vint 5)] ERROR)
          k = Ctx.get [("service", .vstr "x")] k)) ∧
    emittedRecords
      [FilteringBoundLogger.info ⟨WARNING, [("service", .vstr "x")]⟩ "a" [] [],
       FilteringBoundLogger.error ⟨WARNING, [("service", .vstr "x")]⟩ "b" []
         [("code", .vint 5)]] =
      [[("service", .vstr "x"), ("event", .vstr "b"), ("code", .vint 5),
        ("level", .vstr "error")]] :=
  C2_event_record ⟨WARNING, [("service", .vstr "x")]⟩ ERROR "b" []
    [("code", .vint 5)] "b" (by decide) rfl rfl

/-- C3: bind, unbind, tryUnbind and new never mutate the receiver
snapshot: every previously allocated snapshot reads back unchanged after
any of the four operations, and the snapshot bind returns is a fresh cell,
independent of every existing one. -/
theorem C3_context_operations_pure (s : Store) (r r2 : Nat) (c2 : Ctx)
    (nv ivs : List (String × Value)) (ks : List String)
    (h : s.read r2 = some c2) :
    (s.bindOp r nv).fst.read r2 = some c2 ∧
    (s.unbindOp r ks).fst.read r2 = some c2 ∧
    (s.tryUnbindOp r ks).fst.read r2 = some c2 ∧
    (s.newOp r ivs).fst.read r2 = some c2 ∧
    (∀ c0, s.read r = some c0 →
      (s.bindOp r nv).fst.read (s.bindOp r nv).snd = some (Ctx.bindPairs c0 nv) ∧
      (s.bindOp r nv).snd ≠ r2) := by
  have hlt : r2 < s.cells.length := Store.lt_of_read s r2 c2 h
  refine ⟨?_, ?_, ?_, ?_, ?_⟩
  · rw [Store.read_bindOp_old _ _ _ _ hlt]; exact h
  · rw [Store.read_unbindOp_old _ _ _ _ hlt]; exact h
  · rw [Store.read_tryUnbindOp_old _ _ _ _ hlt]; exact h
  · rw [Store.read_newOp_old _ _ _ _ hlt]; exact h
  · intro c0 hr
    constructor
    · have hn := Store.read_alloc_new s (Ctx.bindPairs c0 nv)
      simpa [Store.bindOp, hr] using hn
    · have hsnd : (s.bindOp r nv).snd = s.cells.length := by
        simp [Store.bindOp, hr, Store.alloc]
      rw [hsnd]
      omega

/-- Witness for C3: a one-cell store; after each operation the original
snapshot still reads back intact, and bind allocates a fresh cell. -/
theorem C3_context_operations_pure_witness :
    (Store.bindOp ⟨[[("a", .vstr "x")]]⟩ 0 [("b", .vint 1)]).fst.read 0 =
        some [("a", .vstr "x")] ∧
    (Store.unbindOp ⟨[[("a", .vstr "x")]]⟩ 0 ["a"]).fst.read 0 =
        some [("a", .vstr "x")] ∧
    (Store.tryUnbindOp ⟨[[("a", .vstr "x")]]⟩ 0 ["a"]).fst.read 0 =
        some [("a", .vstr "x")] ∧
    (Store.newOp ⟨[[("a", .vstr "x")]]⟩ 0 [("c", .vint 2)]).fst.read 0 =
        some [("a", .vstr "x")] ∧
    (∀ c0, Store.read ⟨[[("a", .vstr "x")]]⟩ 0 = some c0 →
      (Store.bindOp ⟨[[("a", .vstr "x")]]⟩ 0 [("b", .vint 1)]).fst.read
          (Store.bindOp ⟨[[("a", .vstr "x")]]⟩ 0 [("b", .vint 1)]).snd =
        some (Ctx.bindPairs c0 [("b", .vint 1)]) ∧
      (Store.bindOp ⟨[[("a", .vstr "x")]]⟩ 0 [("b", .vint 1)]).snd ≠ 0) :=
  C3_context_operations_pure ⟨[[("a", .vstr "x")]]⟩ 0 0 [("a", .vstr "x")]
    [("b", .vint 1)] [("c", .vint 2)] ["a"] (by decide)

/-- C4: with positional arguments the event message is the template with
printf-style percent substitution applied — info "got %s items" 3 yields
the message "got 3 items" — while without positional arguments the
message is used verbatim with no interpolation attempted, so "100% done"
passes through unchanged instead of failing. -/
theorem C4_interpolation (event : String) (args : List Value) (h : args ≠ []) :
    FilteringBoundLogger.info ⟨INFO, []⟩ "got %s items" [.vint 3] [] =
      .ok (.emitted [("event", .vstr "got 3 items"), ("level", .vstr "info")]) ∧
    interpMsg event [] = .ok event ∧
    interpMsg event args = interpolate event args ∧
    FilteringBoundLogger.info ⟨INFO, []⟩ "100% done" [] [] =
      .ok (.emitted [("event", .vstr "100% done"), ("level", .vstr "info")]) := by
  refine ⟨rfl, rfl, ?_, rfl⟩
  cases args with
  | nil => exact absurd rfl h
  | cons a more => rfl

/-- Witness for C4 at a nonempty positional-argument list. -/
theorem C4_interpolation_witness :
    FilteringBoundLogger.info ⟨INFO, []⟩ "got %s items" [.vint 3] [] =
      .ok (.emitted [("event", .vstr "got 3 items"), ("level", .vstr "info")]) ∧
    interpMsg "got %s items" [] = .ok "got %s items" ∧
    interpMsg "got %s items" [.vint 3] = interpolate "got %s items" [.vint 3] ∧
    FilteringBoundLogger.info ⟨INFO, []⟩ "100% done" [] [] =
      .ok (.emitted [("event", .vstr "100% done"), ("level", .vstr "info")]) :=
  C4_interpolation "got %s items" [.vint 3] (by simp)

/-- C6: strict unbind fails, with KeyNotFound naming an offending key, if
and only if some listed key is absent from the context; on success every
listed key is removed and every other key is untouched; tryUnbind removes
the present keys, ignores absent ones, and is a total function that never
fails. -/
theorem C6_unbind_strictness (c : Ctx) (ks : List String) :
    ((∃ e, Ctx.unbind c ks = .error e) ↔ ∃ k ∈ ks, Ctx.get c k = none) ∧
    (∀ c2, Ctx.unbind c ks = .ok c2 →
      ∀ k, (k ∈ ks → Ctx.get c2 k = none) ∧ (k ∉ ks → Ctx.get c2 k = Ctx.get c k)) ∧
    (∀ k, (k ∈ ks → Ctx.get (Ctx.tryUnbind c ks) k = none) ∧
      (k ∉ ks → Ctx.get (Ctx.tryUnbind c ks) k = Ctx.get c k)) ∧
    (∀ e, Ctx.unbind c ks = .error e →
      ∃ k, e = .keyNotFound k ∧ k ∈ ks ∧ Ctx.get c k = none) := by
  refine ⟨?_, ?_, ?_, ?_⟩
  · constructor
    · rintro ⟨e, he⟩
      unfold Ctx.unbind at he
      cases hf : ks.find? (fun k => !(Ctx.hasKey c k)) with
      | some k =>
          have hp0 := List.find?_some hf
          exact ⟨k, List.mem_of_find?_eq_some hf,
            Ctx.get_eq_none_of_not_hasKey c k hp0⟩
      | none => rw [hf] at he; exact absurd he (by simp)
    · rintro ⟨k, hk, hnone⟩
      unfold Ctx.unbind
      cases hf : ks.find? (fun k => !(Ctx.hasKey c k)) with
      | some k2 => exact ⟨.keyNotFound k2, rfl⟩
      | none =>
          have := List.find?_eq_none.mp hf k hk
          simp [Ctx.hasKey, hnone] at this
  · intro c2 hok k
    have hc2 : c2 = Ctx.tryUnbind c ks := Ctx.unbind_ok_eq c ks c2 hok
    subst hc2
    constructor
    · intro hk; rw [Ctx.get_tryUnbind, if_pos hk]
    · intro hk; rw [Ctx.get_tryUnbind, if_neg hk]
  · intro k
    constructor
    · intro hk; rw [Ctx.get_tryUnbind, if_pos hk]
    · intro hk; rw [Ctx.get_tryUnbind, if_neg hk]
  · intro e he
    unfold Ctx.unbind at he
    cases hf : ks.find? (fun k => !(Ctx.hasKey c k)) with
    | some k =>
        rw [hf] at he
        have hp0 := List.find?_some hf
        refine ⟨k, ?_, List.mem_of_find?_eq_some hf,
          Ctx.get_eq_none_of_not_hasKey c k hp0⟩
        exact ((Except.error.injEq _ _).mp he).symm
    | none => rw [hf] at he; exact absurd he (by simp)

/-- Witness for C6 on a one-entry context and a key that is present plus
one that is absent. -/
theorem C6_unbind_strictness_witness :
    (((∃ e, Ctx.unbind [("a", .vstr "x")] ["b"] = .error e) ↔
        ∃ k ∈ ["b"], Ctx.get [("a", .vstr "x")] k = none) ∧
      (∀ c2, Ctx.unbind [("a", .vstr "x")] ["b"] = .ok c2 →
        ∀ k, (k ∈ ["b"] → Ctx.get c2 k = none) ∧
          (k ∉ ["b"] → Ctx.get c2 k = Ctx.get [("a", .vstr "x")] k)) ∧
      (∀ k, (k ∈ ["b"] → Ctx.get (Ctx.tryUnbind [("a", .vstr "x")] ["b"]) k = none) ∧
        (k ∉ ["b"] →
          Ctx.get (Ctx.tryUnbind [("a", .vstr "x")] ["b"]) k =
            Ctx.get [("a", .vstr "x")] k)) ∧
      (∀ e, Ctx.unbind [("a", .vstr "x")] ["b"] = .error e →
        ∃ k, e = .keyNotFound k ∧ k ∈ ["b"] ∧ Ctx.get [("a", .vstr "x")] k = none)) ∧
    Ctx.unbind [("a", .vstr "x")] ["b"] = .error (.keyNotFound "b") ∧
    Ctx.unbind [("a", .vstr "x")] ["a"] = .ok [] ∧
    Ctx.tryUnbind [("a", .vstr "x")] ["b"] = [("a", .vstr "x")] :=
  ⟨C6_unbind_strictness [("a", .vstr "x")] ["b"], rfl, rfl, rfl⟩

/-- C7: an enabled call whose positional-argument interpolation fails
raises the format-mismatch failure to the caller with zero context copies
and zero processor invocations — the call is aborted before any processor
runs and no partial EventRecord is emitted — and, conversely, a format
mismatch during interpolation of a nonempty argument list is the only way
a log call can fail. -/
theorem C7_format_mismatch_aborts (lg : FilteringBoundLogger) (level : Nat)
    (event : String) (args : List Value) (kw : List (String × Value))
    (e : LogError)
    (hen : lg.minLevel ≤ level)
    (hargs : args ≠ [])
    (hfail : interpolate event args = .error e) :
    lg.logTraced level event args kw = (.error e, ⟨0, 0⟩) ∧
    (∀ lg2 : FilteringBoundLogger, ∀ level2 event2 args2 kw2 e2,
      FilteringBoundLogger.log lg2 level2 event2 args2 kw2 = .error e2 →
      args2 ≠ [] ∧ interpolate event2 args2 = .error e2 ∧ e2 = .formatMismatch) := by
  constructor
  · have hne : ¬args.isEmpty := by
      cases args with
      | nil => exact absurd rfl hargs
      | cons a more => simp
    simp [FilteringBoundLogger.logTraced, Nat.not_lt.mpr hen, interpMsg, hne, hfail]
  · intro lg2 level2 event2 args2 kw2 e2 herr
    unfold FilteringBoundLogger.log FilteringBoundLogger.logTraced at herr
    by_cases hlt : level2 < lg2.minLevel
    · rw [if_pos hlt] at herr
      exact absurd herr (by simp)
    · rw [if_neg hlt] at herr
      cases hm : interpMsg event2 args2 with
      | ok m => rw [hm] at herr; exact absurd herr (by simp)
      | error e3 =>
          rw [hm] at herr
          have he3 : e3 = e2 := by simpa using herr
          subst he3
          unfold interpMsg at hm
          by_cases hemp : args2.isEmpty
          · rw [if_pos hemp] at hm
            exact absurd hm (by simp)
          · rw [if_neg hemp] at hm
            refine ⟨?_, hm, ?_⟩
            · intro hnil; subst hnil; simp at hemp
            · cases e3; rfl

/-- Witness for C7: an enabled info call with a decimal conversion applied
to a string argument fails with the format mismatch at zero cost. -/
theorem C7_format_mismatch_aborts_witness :
    FilteringBoundLogger.logTraced ⟨INFO, []⟩ INFO "%d" [.vstr "x"] [] =
        (.error .formatMismatch, ⟨0, 0⟩) ∧
    (∀ lg2 : FilteringBoundLogger, ∀ level2 event2 args2 kw2 e2,
      FilteringBoundLogger.log lg2 level2 event2 args2 kw2 = .error e2 →
      args2 ≠ [] ∧ interpolate event2 args2 = .error e2 ∧ e2 = .formatMismatch) :=
  C7_format_mismatch_aborts ⟨INFO, []⟩ INFO "%d" [.vstr "x"] [] .formatMismatch
    (by decide) (by simp) rfl

end Structlog
